import Mathlib

/-!
# Verification of the politeiavoter trickle-vote client

A shallow embedding, in Lean 4, of the core of
`politeiawww/cmd/politeiavoter/politeiavoter.go`: the journal writer
(`jsonLog`), the HTTP outcome classifier (`makeRequest`), single vote
submission (`sendVote`), the trickle main loop (`_voteTrickler`), the vote-bit
encoding used by `_vote` versus the parsing done by `tally`, the journal
decoders (`decodeFailed` / `decodeSuccess` / `decodeWork`), the verifier
statistics of `verifyVote`, and the eligibility filter `eligibleVotes`.

Go machine integers are modelled as `Nat` with explicit bounds where overflow
matters; Go byte slices and hex hashes are modelled as `String`; fallible Go
code returns `Option` / `Except`.  External collaborators (the HTTP server,
the wallet gRPC service) are modelled as explicit oracle inputs describing the
outcome of each call.
-/

namespace Politeiavoter

/-! ## Wire data model (ticketvote v1 API, consumed by the client) -/

/-- `tkv1.CastVote`: a single signed vote as submitted to the server. -/
structure CastVote where
  token : String
  ticket : String
  voteBit : String
  signature : String
  deriving Repr, DecidableEq

/-- `tkv1.CastVoteReply`: the server's receipt for one submitted vote. -/
structure CastVoteReply where
  ticket : String
  receipt : String
  errorCode : Nat
  errorContext : String
  deriving Repr, DecidableEq

/-- `tkv1.UserErrorReply`: the structured body of an HTTP 400 reply. -/
structure UserErrorReply where
  errorCode : Nat
  errorContext : String
  deriving Repr, DecidableEq

/-- `tkv1.CastVoteDetails`: one already-cast vote as returned by the server's
`Results` route; the fields the client reads. -/
structure CastVoteDetails where
  ticket : String
  voteBit : String
  signature : String
  deriving Repr, DecidableEq

/-- `tkv1.VoteErrorVoteStatusInvalid`: the application error code meaning the
proposal's voting window has closed.  The numeric value lives in the external
ticketvote API package; only its distinctness from the success code 0 and
other codes matters to the engine, which compares receipts against it. -/
def voteErrorVoteStatusInvalid : Nat := 4

/-- `voteInterval`: a scheduled unit of work of the trickle engine
(`Vote` plus the delay `At` before it is dispatched).  Durations are
modelled as `Nat` nanoseconds. -/
structure VoteInterval where
  vote : CastVote
  At : Nat
  deriving Repr, DecidableEq

/-! ## Journal writer (`jsonLog`)

`jsonLog(filename, token, work...)` builds the directory `<voteDir>/<token>`
with mode 0700, opens `<dir>/<filename>.<c.run.Unix()>` with
`O_WRONLY|O_CREATE|O_APPEND` and mode 0600, and appends one `JSONTime`
marker record followed by the payload records.  We model the filesystem
effect it requests, not the kernel's execution of it. -/

/-- The three journal base-name constants of the source file. -/
def failedJournal : String := "failed.json"

/-- `successJournal` constant. -/
def successJournal : String := "success.json"

/-- `workJournal` constant. -/
def workJournal : String := "work.json"

/-- Open-file flags used by `jsonLog` (`os.O_WRONLY|os.O_CREATE|os.O_APPEND`). -/
inductive FileFlag where
  | oWronly
  | oCreate
  | oAppend
  | oTrunc
  deriving Repr, DecidableEq

/-- One record written by a `jsonLog` call: the `JSONTime` marker or a
payload value (opaque here). -/
inductive JournalRecord (α : Type) where
  | timeMarker (t : String)
  | payload (v : α)
  deriving Repr, DecidableEq

/-- The filesystem effect of one `jsonLog` call. -/
structure JsonLogEffect (α : Type) where
  dirPath : String
  dirMode : Nat
  filePath : String
  fileMode : Nat
  flags : List FileFlag
  records : List (JournalRecord α)
  deriving Repr, DecidableEq

/-- `filepath.Join` on two already-clean components. -/
def pathJoin (a b : String) : String := a ++ "/" ++ b

/-- The journal file path constructed by `jsonLog`:
`filepath.Join(dir, fmt.Sprintf("%v.%v", filename, c.run.Unix()))`. -/
def journalFilePath (voteDir token filename : String) (runUnix : Int) : String :=
  pathJoin (pathJoin voteDir token) (filename ++ "." ++ toString runUnix)

/-- `jsonLog` as the filesystem effect it performs: create the per-proposal
directory 0700, append-open the timestamped file 0600, encode the time marker
then every payload record in order. -/
def jsonLog (α : Type) (voteDir token filename : String) (runUnix : Int)
    (now : String) (work : List α) : JsonLogEffect α :=
  { dirPath := pathJoin voteDir token
    dirMode := 0o700
    filePath := journalFilePath voteDir token filename runUnix
    fileMode := 0o600
    flags := [FileFlag.oWronly, FileFlag.oCreate, FileFlag.oAppend]
    records := JournalRecord.timeMarker now :: work.map JournalRecord.payload }

/-! ## HTTP outcome classification (`makeRequest`) -/

/-- The response body as the client sees it: the raw bytes plus the results of
the two unmarshal attempts the code performs on such bodies (`none` models a
`json.Unmarshal` error). -/
structure ResponseBody where
  raw : String
  /-- Result of `json.Unmarshal(responseBody, &ue)` for `tkv1.UserErrorReply`. -/
  ueReply : Option UserErrorReply
  /-- Result of unmarshalling into `tkv1.CastBallotReply` (its `Receipts`). -/
  cbReceipts : Option (List CastVoteReply)
  deriving Repr, DecidableEq

/-- Outcome of `c.client.Do(req)`: either the transport fails before any
response exists, or a response with a status code and body arrives. -/
inductive HttpOutcome where
  | doErr (e : String)
  | resp (status : Nat) (body : ResponseBody)
  deriving Repr, DecidableEq

/-- `ErrRetry`: the retryable error value, with its `At`/`Body`/`Code`/`Err`
fields.  `body = none` models a nil byte slice, `err = none` a nil error. -/
structure ErrRetry where
  At : String
  body : Option String
  code : Nat
  err : Option String
  deriving Repr, DecidableEq

/-- What `makeRequest` returns: a retryable `ErrRetry`, a plain terminal
error (a `fmt.Errorf` value, never matching `errors.As(&ErrRetry)`), or the
response body with a nil error. -/
inductive ReqResult where
  | retry (e : ErrRetry)
  | terminal (msg : String)
  | ok (body : ResponseBody)
  deriving Repr, DecidableEq

/-- `makeRequest`'s classification of the HTTP outcome (the request-encoding
prefix of the Go function, which cannot reach the classification switch, is
omitted): a `client.Do` failure becomes `ErrRetry{At: "c.client.Do(req)"}`;
status 200 falls through to `return responseBody, nil`; status 400 returns a
terminal error only when the body unmarshals to a `UserErrorReply` with a
nonzero `ErrorCode`, otherwise falls through to `return responseBody, nil`;
every other status returns `ErrRetry` carrying the status and body. -/
def makeRequest (outcome : HttpOutcome) : ReqResult :=
  match outcome with
  | HttpOutcome.doErr e =>
      ReqResult.retry { At := "c.client.Do(req)", body := none, code := 0, err := some e }
  | HttpOutcome.resp status body =>
      if status = 200 then
        ReqResult.ok body
      else if status = 400 then
        match body.ueReply with
        | some ue =>
            if ue.errorCode ≠ 0 then
              ReqResult.terminal (toString status ++ ", " ++ ue.errorContext)
            else
              ReqResult.ok body
        | none => ReqResult.ok body
      else
        ReqResult.retry { At := "r.StatusCode != http.StatusOK",
                          body := some body.raw, code := status, err := none }

/-! ## Single vote submission (`sendVote`) -/

/-- `tkv1.CastBallot`: the ballot wrapper holding the votes being cast. -/
structure CastBallot where
  votes : List CastVote
  deriving Repr, DecidableEq

/-- Result of `sendVote`: either an error (retryable or terminal, as
propagated or created) or exactly one receipt. -/
inductive SendVoteResult where
  | retry (e : ErrRetry)
  | err (msg : String)
  | ok (r : CastVoteReply)
  deriving Repr, DecidableEq

/-- `sendVote`: rejects ballots that do not carry exactly one vote, submits
via `makeRequest` (the outcome of which is the oracle input), propagates its
errors, rejects an unmarshal failure and any reply whose `Receipts` list does
not have exactly one element, and returns that receipt. -/
def sendVote (ballot : CastBallot) (outcome : HttpOutcome) : SendVoteResult :=
  if ballot.votes.length ≠ 1 then
    SendVoteResult.err "sendVote: only one vote allowed"
  else
    match makeRequest outcome with
    | ReqResult.retry e => SendVoteResult.retry e
    | ReqResult.terminal m => SendVoteResult.err m
    | ReqResult.ok body =>
        match body.cbReceipts with
        | none => SendVoteResult.err "Could not unmarshal CastVoteReply"
        | some receipts =>
            if h : receipts.length = 1 then
              SendVoteResult.ok (receipts.get ⟨0, by omega⟩)
            else
              SendVoteResult.err "sendVote: received multiple answers"

/-! ## Trickle engine main loop (`_voteTrickler`)

The engine state owned by `ctx`: the two FIFO queues (`container/list` used
as front-pop / back-push lists), the results slice, the journal appends this
run performs, and the two one-shot exit flags the loop can raise.  The
outcome of each loop iteration's `select` and of each HTTP submission is
supplied by an oracle list, one entry per iteration. -/

/-- An entry appended to the failed journal by the main loop: either a
retryable submission failure (`jsonLog(failedJournal, token, b, e)`) or a
`VoteStatusInvalid` receipt (`jsonLog(failedJournal, token, vr)`). -/
inductive FailedLogEntry where
  | retryFail (b : CastBallot) (e : ErrRetry)
  | statusInvalid (vr : CastVoteReply)
  deriving Repr, DecidableEq

/-- The engine state mutated by `_voteTrickler` (the `ctx` fields it owns,
plus the journal contents it appends this run). -/
structure TricklerState where
  voteIntervalQ : List VoteInterval
  retryQ : List CastVote
  ballotResults : List CastVoteReply
  failedLog : List FailedLogEntry
  successLog : List CastVoteReply
  mainLoopForceExit : Bool
  mainLoopDone : Bool
  deriving Repr, DecidableEq

/-- `voteIntervalPush`: `c.voteIntervalQ.PushBack(v)` — appends at the back
of the queue. -/
def voteIntervalPush (st : TricklerState) (v : VoteInterval) : TricklerState :=
  { st with voteIntervalQ := st.voteIntervalQ ++ [v] }

/-- `voteIntervalPop`: removes and returns the front element, or `none`. -/
def voteIntervalPop (st : TricklerState) : Option (VoteInterval × TricklerState) :=
  match st.voteIntervalQ with
  | [] => none
  | v :: rest => some (v, { st with voteIntervalQ := rest })

/-- `voteIntervalLen`. -/
def voteIntervalLen (st : TricklerState) : Nat := st.voteIntervalQ.length

/-- Modelled from the spec: `retryPush` is referenced by `_voteTrickler` but
its body is not among the provided files; §4.2 specifies the retry queue as a
FIFO with `push` appending at the back. -/
def retryPush (st : TricklerState) (v : CastVote) : TricklerState :=
  { st with retryQ := st.retryQ ++ [v] }

/-- Modelled from the spec: `retryLen` is referenced by `vote()` but its body
is not among the provided files; §4.2 specifies `len` as the FIFO's length
(observable under a read lock per §9). -/
def retryLen (st : TricklerState) : Nat := st.retryQ.length

/-- The `Votes not cast` statistic printed by `vote()` at exit:
`c.voteIntervalLen() + uint64(c.retryLen())`. -/
def votesNotCast (st : TricklerState) : Nat := voteIntervalLen st + retryLen st

/-- Which arm of the main loop's `select` fires during the inter-vote wait. -/
inductive WaitEvent where
  | ctxDone
  | timerFired
  | retryForce
  deriving Repr, DecidableEq

/-- Oracle input for one main-loop iteration: the `select` outcome and, when
the vote is dispatched, the HTTP outcome of its submission. -/
structure IterOracle where
  wait : WaitEvent
  send : HttpOutcome
  deriving Repr, DecidableEq

/-- How the main loop terminates: falling out of the loop with an empty
queue (then signalling `mainLoopDone` and waiting for the retry loop), or
jumping to the `exit` label. -/
inductive TricklerExit where
  | normalExit
  | forcedExit
  deriving Repr, DecidableEq

/-- Result of the `vote:` label body for one dispatched vote: continue the
loop or jump to `exit`. -/
inductive StepOut where
  | next (st : TricklerState)
  | exitLoop (st : TricklerState)
  deriving Repr, DecidableEq

/-- The `vote:` label body of `_voteTrickler`: submit the single-vote ballot;
a retryable error is journalled and the vote pushed onto the retry queue; any
other error is unrecoverable; a receipt is recorded in `ballotResults`, and a
`VoteErrorVoteStatusInvalid` receipt is journalled as failed, raises
`mainLoopForceExit` and exits the loop, while any other receipt is journalled
as success. -/
def castOneVote (vote : VoteInterval) (send : HttpOutcome) (st : TricklerState) :
    Except String StepOut :=
  let b : CastBallot := ⟨[vote.vote]⟩
  match sendVote b send with
  | SendVoteResult.retry e =>
      Except.ok (StepOut.next
        (retryPush { st with failedLog := st.failedLog ++ [FailedLogEntry.retryFail b e] }
          vote.vote))
  | SendVoteResult.err m => Except.error ("unrecoverable error: " ++ m)
  | SendVoteResult.ok vr =>
      let st1 := { st with ballotResults := st.ballotResults ++ [vr] }
      if vr.errorCode = voteErrorVoteStatusInvalid then
        Except.ok (StepOut.exitLoop
          { st1 with failedLog := st1.failedLog ++ [FailedLogEntry.statusInvalid vr],
                     mainLoopForceExit := true })
      else
        Except.ok (StepOut.next { st1 with successLog := st1.successLog ++ [vr] })

/-- The main loop of `_voteTrickler`, iteration counter `i` as in the source:
pop the queue head (empty queue ends the loop normally, signalling
`mainLoopDone`); the first iteration dispatches without waiting; later
iterations wait — external cancellation jumps straight to `exit`,
`retryLoopForceExit` pushes the popped vote back (at the queue's back) and
jumps to `exit`, and timer expiry dispatches the vote.  One oracle entry is
consumed per iteration; an exhausted oracle is a model artefact reported as
an error. -/
def voteTricklerLoop : List IterOracle → Nat → TricklerState →
    Except String (TricklerState × TricklerExit)
  | evs, i, st =>
    match voteIntervalPop st with
    | none => Except.ok ({ st with mainLoopDone := true }, TricklerExit.normalExit)
    | some (vote, st') =>
      match evs with
      | [] => Except.error "model: iteration oracle exhausted"
      | ev :: rest =>
        if i = 0 then
          match castOneVote vote ev.send st' with
          | Except.error m => Except.error m
          | Except.ok (StepOut.next st2) => voteTricklerLoop rest (i + 1) st2
          | Except.ok (StepOut.exitLoop st2) => Except.ok (st2, TricklerExit.forcedExit)
        else
          match ev.wait with
          | WaitEvent.ctxDone => Except.ok (st', TricklerExit.forcedExit)
          | WaitEvent.retryForce =>
              Except.ok (voteIntervalPush st' vote, TricklerExit.forcedExit)
          | WaitEvent.timerFired =>
            match castOneVote vote ev.send st' with
            | Except.error m => Except.error m
            | Except.ok (StepOut.next st2) => voteTricklerLoop rest (i + 1) st2
            | Except.ok (StepOut.exitLoop st2) => Except.ok (st2, TricklerExit.forcedExit)

/-! ## Vote-bit encoding (`_vote`) versus tally parsing (`tally`)

`_vote` encodes the chosen option's bit with
`strconv.FormatUint(vv.Bit, 16)` (lowercase hex, no prefix); `tally` parses
each recorded `VoteBit` with `strconv.ParseUint(v.VoteBit, 10, 64)` and
counts `count[bits]++`. -/

/-- Big-endian base-16 digit list of `n`, as produced by
`strconv.FormatUint(n, 16)` (a lone `0` encodes as `[0]`). -/
def hexDigits (n : Nat) : List Nat :=
  if _h : n < 16 then [n] else hexDigits (n / 16) ++ [n % 16]
  termination_by n
  decreasing_by exact Nat.div_lt_self (by omega) (by omega)

/-- `strconv`'s lowercase digit alphabet: `0`–`9` then `a`–`f`. -/
def lowerHexChar (d : Nat) : Char :=
  if d < 10 then Char.ofNat (48 + d) else Char.ofNat (87 + d)

/-- `strconv.FormatUint(bit, 16)`: the `voteBit` string `_vote` places in
every `CastVote`. -/
def voteBitString (bit : Nat) : String :=
  String.mk ((hexDigits bit).map lowerHexChar)

/-- One step of `strconv.ParseUint(s, 10, 64)`: a character must be a
decimal digit and the accumulated value must stay below `2^64`. -/
def parseUint10Core : List Char → Nat → Option Nat
  | [], acc => some acc
  | c :: cs, acc =>
      if 48 ≤ c.toNat ∧ c.toNat ≤ 57 then
        let v := acc * 10 + (c.toNat - 48)
        if v < 2 ^ 64 then parseUint10Core cs v else none
      else none

/-- `strconv.ParseUint(s, 10, 64)`: rejects the empty string, any non-decimal
character, and values exceeding the 64-bit range. -/
def parseUint10 (s : String) : Option Nat :=
  match s.data with
  | [] => none
  | cs => parseUint10Core cs 0

/-- Decimal reading of a digit list starting from accumulator `acc`
(the value `parseUint10` computes when every digit is decimal). -/
def decValFrom (acc : Nat) (ds : List Nat) : Nat :=
  ds.foldl (fun a d => a * 10 + d) acc

/-- The per-vote tally fold of `tally`: parse each recorded `VoteBit` in
base 10 and increment its count, propagating the first parse error. -/
def tallyCounts (voteBits : List String) : Option (Nat → Nat) :=
  voteBits.foldl
    (fun acc s =>
      match acc, parseUint10 s with
      | some count, some bits => some (fun b => if b = bits then count b + 1 else count b)
      | _, _ => none)
    (some (fun _ => 0))

/-! Auxiliary lemmas about the hex digit expansion and decimal parsing. -/

theorem hexDigits_lt (n : Nat) : ∀ d ∈ hexDigits n, d < 16 := by
  induction n using Nat.strong_induction_on with
  | _ n ih =>
    rw [hexDigits]
    split
    · intro d hd
      simp only [List.mem_singleton] at hd
      omega
    · intro d hd
      rcases List.mem_append.mp hd with h | h
      · exact ih (n / 16) (Nat.div_lt_self (by omega) (by omega)) d h
      · simp only [List.mem_singleton] at h
        subst h
        exact Nat.mod_lt _ (by omega)

theorem hexDigits_ne_nil (n : Nat) : hexDigits n ≠ [] := by
  rw [hexDigits]
  split
  · simp
  · simp

theorem lowerHexChar_toNat_of_lt (d : Nat) (h : d < 10) :
    (lowerHexChar d).toNat = 48 + d := by
  interval_cases d <;> rfl

theorem lowerHexChar_toNat_of_ge (d : Nat) (h1 : 10 ≤ d) (h2 : d < 16) :
    (lowerHexChar d).toNat = 87 + d := by
  interval_cases d <;> rfl

/-- `parseUint10Core` over an all-decimal digit string computes the decimal
reading, provided it stays in 64-bit range. -/
theorem parseUint10Core_map (ds : List Nat) (acc : Nat)
    (hds : ∀ d ∈ ds, d < 10) (hbound : decValFrom acc ds < 2 ^ 64) :
    parseUint10Core (ds.map lowerHexChar) acc = some (decValFrom acc ds) := by
  induction ds generalizing acc with
  | nil => rfl
  | cons d tl ih =>
    have hd : d < 10 := hds d (List.mem_cons_self d tl)
    have hmono : acc * 10 + d ≤ decValFrom acc (d :: tl) := by
      have : ∀ (l : List Nat) (a : Nat), a ≤ decValFrom a l := by
        intro l
        induction l with
        | nil => intro a; exact Nat.le_refl a
        | cons x xs ihx =>
          intro a
          calc a ≤ a * 10 + x := by omega
            _ ≤ decValFrom (a * 10 + x) xs := ihx _
      exact this tl (acc * 10 + d)
    simp only [List.map_cons, parseUint10Core, lowerHexChar_toNat_of_lt d hd]
    have hin : 48 ≤ 48 + d ∧ 48 + d ≤ 57 := by omega
    rw [if_pos hin]
    have hsub : 48 + d - 48 = d := by omega
    rw [hsub]
    have hstep : acc * 10 + d < 2 ^ 64 := Nat.lt_of_le_of_lt hmono hbound
    rw [if_pos hstep]
    exact ih (acc * 10 + d) (fun x hx => hds x (List.mem_cons_of_mem d hx)) hbound

/-- A letter digit (value ≥ 10) makes `parseUint10Core` fail at once. -/
theorem parseUint10Core_letter (d : Nat) (tl : List Nat) (acc : Nat)
    (h1 : 10 ≤ d) (h2 : d < 16) :
    parseUint10Core ((d :: tl).map lowerHexChar) acc = none := by
  simp only [List.map_cons, parseUint10Core, lowerHexChar_toNat_of_ge d h1 h2]
  rw [if_neg (by omega)]

/-- The decimal reading of the hex expansion is strictly below the value
itself as soon as two hex digits are needed. -/
theorem decValFrom_hexDigits_lt (n : Nat) (h : 16 ≤ n) :
    decValFrom 0 (hexDigits n) < n := by
  induction n using Nat.strong_induction_on with
  | _ n ih =>
    rw [hexDigits]
    rw [dif_neg (by omega)]
    have hq1 : 1 ≤ n / 16 := (Nat.one_le_div_iff (by omega)).mpr h
    have happ : decValFrom 0 (hexDigits (n / 16) ++ [n % 16]) =
        decValFrom 0 (hexDigits (n / 16)) * 10 + n % 16 := by
      simp [decValFrom, List.foldl_append]
    rw [happ]
    have hqv : decValFrom 0 (hexDigits (n / 16)) ≤ n / 16 := by
      by_cases hq : n / 16 < 16
      · have : hexDigits (n / 16) = [n / 16] := by
          rw [hexDigits]; rw [dif_pos hq]
        rw [this]
        simp [decValFrom]
      · have := ih (n / 16) (Nat.div_lt_self (by omega) (by omega)) (by omega)
        omega
    have hdecomp : n = 16 * (n / 16) + n % 16 := (Nat.div_add_mod n 16).symm
    have : decValFrom 0 (hexDigits (n / 16)) * 10 < 16 * (n / 16) := by
      calc decValFrom 0 (hexDigits (n / 16)) * 10 ≤ (n / 16) * 10 :=
            Nat.mul_le_mul_right 10 hqv
        _ < 16 * (n / 16) := by omega
    omega

theorem hexDigits_of_lt (n : Nat) (h : n < 16) : hexDigits n = [n] := by
  rw [hexDigits]; rw [dif_pos h]

/-! ## Journal decoders (`decodeFailed`, `decodeSuccess`, `decodeWork`)

A journal file is a bare concatenation of JSON values.  We model the stream
a `json.Decoder` sees as the list of complete values present in the file,
plus a flag recording whether a partial value (a crash mid-tuple) trails at
the end: `Decode` on an exhausted clean stream returns `io.EOF`, on a
trailing partial value some other error.  The journal values written by this
program are of five shapes; Go's `json.Unmarshal` fills a struct target from
any JSON object (absent fields become zero values) but fails when an object
meets a slice target or vice versa. -/

/-- `JSONTime`: the `{time: ...}` marker record. -/
structure JSONTime where
  time : String
  deriving Repr, DecidableEq

/-- A complete JSON value in a journal stream: one of the object shapes the
program writes, or the array shape of a `[]voteInterval` work record. -/
inductive JVal where
  | timeRec (t : JSONTime)
  | ballotRec (votes : List CastVote)
  | errRec (e : ErrRetry)
  | replyRec (r : CastVoteReply)
  | workRec (votes : List VoteInterval)
  deriving Repr, DecidableEq

/-- Decode a stream value into a `JSONTime` target: every object shape
succeeds (a missing `time` field is the zero string); an array fails. -/
def decodeAsTime : JVal → Option JSONTime
  | JVal.timeRec t => some t
  | JVal.ballotRec _ => some ⟨""⟩
  | JVal.errRec _ => some ⟨""⟩
  | JVal.replyRec _ => some ⟨""⟩
  | JVal.workRec _ => none

/-- Decode into a `tkv1.CastBallot` target (`ft.Votes`). -/
def decodeAsBallot : JVal → Option (List CastVote)
  | JVal.timeRec _ => some []
  | JVal.ballotRec votes => some votes
  | JVal.errRec _ => some []
  | JVal.replyRec _ => some []
  | JVal.workRec _ => none

/-- Decode into an `ErrRetry` target (`ft.Error`). -/
def decodeAsErrRetry : JVal → Option ErrRetry
  | JVal.timeRec _ => some ⟨"", none, 0, none⟩
  | JVal.ballotRec _ => some ⟨"", none, 0, none⟩
  | JVal.errRec e => some e
  | JVal.replyRec _ => some ⟨"", none, 0, none⟩
  | JVal.workRec _ => none

/-- Decode into a `tkv1.CastVoteReply` target (`st.Result`). -/
def decodeAsReply : JVal → Option CastVoteReply
  | JVal.timeRec _ => some ⟨"", "", 0, ""⟩
  | JVal.ballotRec _ => some ⟨"", "", 0, ""⟩
  | JVal.errRec _ => some ⟨"", "", 0, ""⟩
  | JVal.replyRec r => some r
  | JVal.workRec _ => none

/-- Decode into a `[]voteInterval` target (`wt.Votes`): only the array shape
succeeds. -/
def decodeAsWork : JVal → Option (List VoteInterval)
  | JVal.workRec votes => some votes
  | _ => none

/-- A journal file's stream: its complete JSON values, and whether a partial
value trails at end-of-file. -/
structure JournalStream where
  vals : List JVal
  truncated : Bool
  deriving Repr, DecidableEq

/-- `failedTuple`. -/
structure FailedTuple where
  Time : JSONTime
  Votes : List CastVote
  Error : ErrRetry
  deriving Repr, DecidableEq

/-- `successTuple`. -/
structure SuccessTuple where
  Time : JSONTime
  Result : CastVoteReply
  deriving Repr, DecidableEq

/-- `workTuple`. -/
structure WorkTuple where
  Time : JSONTime
  Votes : List VoteInterval
  deriving Repr, DecidableEq

/-- The state machine of `decodeFailed`, over the remaining stream values.
It returns the `(ticket, tuple)` entries appended to the shared `failed` map
so far (Go mutates the map in place, so entries before an error survive) and
the error returned, if any: `io.EOF` is graceful only in state 0; end of
stream in states 1 or 2, a shape mismatch, a ballot without exactly one vote,
or an empty ticket are returned as errors. -/
def decodeFailedLoop : List JVal → Bool → List (String × FailedTuple) →
    List (String × FailedTuple) × Option String
  | [], truncated, acc =>
      (acc, if truncated then some "decode time: unexpected EOF" else none)
  | [v1], _, acc =>
      match decodeAsTime v1 with
      | none => (acc, some "decode time")
      | some _ => (acc, some "decode cast votes")
  | [v1, v2], _, acc =>
      match decodeAsTime v1 with
      | none => (acc, some "decode time")
      | some _ =>
        match decodeAsBallot v2 with
        | none => (acc, some "decode cast votes")
        | some votes =>
          if votes.length = 1 then (acc, some "decode error retry")
          else (acc, some "decode invalid length")
  | v1 :: v2 :: v3 :: rest, truncated, acc =>
      match decodeAsTime v1 with
      | none => (acc, some "decode time")
      | some t =>
        match decodeAsBallot v2 with
        | none => (acc, some "decode cast votes")
        | some votes =>
          if h : votes.length = 1 then
            match decodeAsErrRetry v3 with
            | none => (acc, some "decode error retry")
            | some e =>
              let ticket := (votes.get ⟨0, by omega⟩).ticket
              if ticket = "" then (acc, some "decode no ticket found")
              else decodeFailedLoop rest truncated (acc ++ [(ticket, ⟨t, votes, e⟩)])
          else (acc, some "decode invalid length")

/-- `decodeFailed` on a journal stream (file opening is assumed to succeed;
the claims concern decoding). -/
def decodeFailed (s : JournalStream) (failed : List (String × FailedTuple)) :
    List (String × FailedTuple) × Option String :=
  decodeFailedLoop s.vals s.truncated failed

/-- The state machine of `decodeSuccess`: tuples of a time marker and a
`CastVoteReply`, keyed by the receipt's ticket, which must be nonempty. -/
def decodeSuccessLoop : List JVal → Bool → List (String × SuccessTuple) →
    List (String × SuccessTuple) × Option String
  | [], truncated, acc =>
      (acc, if truncated then some "decode time: unexpected EOF" else none)
  | [v1], _, acc =>
      match decodeAsTime v1 with
      | none => (acc, some "decode time")
      | some _ => (acc, some "decode cast votes")
  | v1 :: v2 :: rest, truncated, acc =>
      match decodeAsTime v1 with
      | none => (acc, some "decode time")
      | some t =>
        match decodeAsReply v2 with
        | none => (acc, some "decode cast votes")
        | some r =>
          if r.ticket = "" then (acc, some "decode no ticket found")
          else decodeSuccessLoop rest truncated (acc ++ [(r.ticket, ⟨t, r⟩)])

/-- `decodeSuccess` on a journal stream. -/
def decodeSuccess (s : JournalStream) (success : List (String × SuccessTuple)) :
    List (String × SuccessTuple) × Option String :=
  decodeSuccessLoop s.vals s.truncated success

/-- The state machine of `decodeWork`: tuples of a time marker and a
`[]voteInterval`, keyed by the marker's time string, which must be
nonempty. -/
def decodeWorkLoop : List JVal → Bool → List (String × WorkTuple) →
    List (String × WorkTuple) × Option String
  | [], truncated, acc =>
      (acc, if truncated then some "decode time: unexpected EOF" else none)
  | [v1], _, acc =>
      match decodeAsTime v1 with
      | none => (acc, some "decode time")
      | some _ => (acc, some "decode votes")
  | v1 :: v2 :: rest, truncated, acc =>
      match decodeAsTime v1 with
      | none => (acc, some "decode time")
      | some t =>
        match decodeAsWork v2 with
        | none => (acc, some "decode votes")
        | some votes =>
          if t.time = "" then (acc, some "decode no time found")
          else decodeWorkLoop rest truncated (acc ++ [(t.time, ⟨t, votes⟩)])

/-- `decodeWork` on a journal stream. -/
def decodeWork (s : JournalStream) (work : List (String × WorkTuple)) :
    List (String × WorkTuple) × Option String :=
  decodeWorkLoop s.vals s.truncated work

/-! ## Verifier (`verifyVote`): journal-file processing and statistics -/

/-- The decode caches `verifyVote` accumulates over the directory's files,
plus the per-file error messages it prints. -/
structure VerifyCaches where
  failed : List (String × FailedTuple)
  success : List (String × SuccessTuple)
  work : List (String × WorkTuple)
  errors : List String
  deriving Repr, DecidableEq

/-- `strings.HasPrefix` on character lists. -/
def charsPre : List Char → List Char → Bool
  | [], _ => true
  | _ :: _, [] => false
  | a :: pre, b :: rest => a = b && charsPre pre rest

/-- `strings.HasPrefix(s, pre)`: does `s` begin with `pre`? -/
def hasPre (s pre : String) : Bool := charsPre pre.data s.data

/-- The file loop of `verifyVote`: each directory entry is dispatched on its
name prefix to the matching decoder, whose entries accumulate in the shared
caches; a decoder error is recorded (printed) and the loop moves on to the
next file; `.voteresults` is skipped and anything else reported as an unknown
journal. -/
def processJournalFiles : List (String × JournalStream) → VerifyCaches → VerifyCaches
  | [], caches => caches
  | (name, s) :: rest, caches =>
    if hasPre name failedJournal then
      let (f, e) := decodeFailed s caches.failed
      processJournalFiles rest
        { caches with failed := f,
                      errors := caches.errors ++
                        (match e with
                         | some m => ["decodeFailed " ++ name ++ ": " ++ m]
                         | none => []) }
    else if hasPre name successJournal then
      let (su, e) := decodeSuccess s caches.success
      processJournalFiles rest
        { caches with success := su,
                      errors := caches.errors ++
                        (match e with
                         | some m => ["decodeSuccess " ++ name ++ ": " ++ m]
                         | none => []) }
    else if hasPre name workJournal then
      let (w, e) := decodeWork s caches.work
      processJournalFiles rest
        { caches with work := w,
                      errors := caches.errors ++
                        (match e with
                         | some m => ["decodeWork " ++ name ++ ": " ++ m]
                         | none => []) }
    else if name = ".voteresults" then
      processJournalFiles rest caches
    else
      processJournalFiles rest
        { caches with errors := caches.errors ++ ["unknown journal: " ++ name] }

/-- `voteStat`: per-ticket statistics assembled from the work journal. -/
structure VoteStat where
  ticket : String
  retries : Nat
  failed : Nat
  success : Nat
  deriving Repr, DecidableEq

/-- `len(failed[ticket])`: how many failed-journal tuples name the ticket. -/
def countFailed (failed : List (String × FailedTuple)) (ticket : String) : Nat :=
  (failed.filter (fun p => p.1 = ticket)).length

/-- `len(success[ticket])`. -/
def countSuccess (success : List (String × SuccessTuple)) (ticket : String) : Nat :=
  (success.filter (fun p => p.1 = ticket)).length

/-- The `voteStat` `verifyVote` builds for one work-journal ticket:
`retries` from the failed journal; a ticket with no success entry gets
`failed = 1` and joins `failedVotes`. -/
def mkVoteStat (failed : List (String × FailedTuple))
    (success : List (String × SuccessTuple)) (ticket : String) : VoteStat :=
  { ticket := ticket
    retries := countFailed failed ticket
    failed := if countSuccess success ticket = 0 then 1 else 0
    success := countSuccess success ticket }

/-- All tickets named by the work journal (`tickets` map), first occurrence
order. -/
def workTickets (work : List (String × WorkTuple)) : List String :=
  ((work.map (fun p => p.2.Votes.map (fun vi => vi.vote.ticket))).flatten).dedup

/-- The one-ticket body of the `failedVotes` counting loop of `verifyVote`,
returning the `(noVote, failedVote, completedNotRecorded)` increments: a
ticket with no retries is `completedNotRecorded` when the server's cast set
has it and otherwise counts as not attempted; any ticket still carrying
`failed ≠ 0` then counts as a failed vote. -/
def classifyFailedVote (inCast : Bool) (v : VoteStat) : Nat × Nat × Nat :=
  if v.retries = 0 then
    if inCast then (0, 0, 1)
    else if v.failed ≠ 0 then (1, 1, 0)
    else (1, 0, 0)
  else if v.failed ≠ 0 then (0, 1, 0)
  else (0, 0, 0)

/-- The verifier's summary counters: iterate the `failedVotes` map (work
tickets with no success entry) and sum the per-ticket increments against the
server's cast set. -/
def verifyStats (caches : VerifyCaches) (cast : List String) : Nat × Nat × Nat :=
  ((workTickets caches.work).filter
      (fun t => countSuccess caches.success t = 0)).foldl
    (fun acc t =>
      let (a, b, c) := classifyFailedVote (t ∈ cast) (mkVoteStat caches.failed caches.success t)
      (acc.1 + a, acc.2.1 + b, acc.2.2 + c))
    (0, 0, 0)

/-! ## Eligibility filter (`eligibleVotes`)

`eligibleVotes(rr, ctres)` indexes the server's already-cast votes by ticket
and walks the wallet's committed tickets, skipping (with a logged error) any
whose transaction cannot be fetched, deserialized or resolved to a stake
commitment address, dropping tickets of imported xpub accounts
(`AccountNumber >= 1<<31-1`), and appending a ticket to the eligible list iff
its hash is absent from the cast-vote map.  Ticket hashes are modelled
directly as their string form (`chainhash.NewHash` / `String` as identity on
well-formed 32-byte hashes). -/

/-- `pb.CommittedTicketsResponse_TicketAddress`: a ticket the wallet can
sign for, with its commitment address. -/
structure TicketAddress where
  ticket : String
  address : String
  deriving Repr, DecidableEq

/-- The wallet/chain oracle for the three lookups `eligibleVotes` performs
per ticket; `none` models the corresponding RPC or parse error, which the
code logs and skips. -/
structure WalletOracle where
  /-- `c.wallet.GetTransaction`: ticket hash to raw transaction. -/
  getTransaction : String → Option String
  /-- `tx.Deserialize` + `stake.AddrFromSStxPkScrCommitment(tx.TxOut[1].PkScript, ...)`:
  raw transaction to stake commitment address. -/
  commitmentAddress : String → Option String
  /-- `c.wallet.ValidateAddress`: address to its account number. -/
  validateAddress : String → Option Nat

/-- `eligibleVotes`: the filter exactly as the source performs it.  Note the
final membership test consults only the ticket's presence in the cast-vote
map; no field of the recorded `CastVoteDetails` (in particular not its
signature) is examined. -/
def eligibleVotes (rrVotes : List CastVoteDetails) (ctres : List TicketAddress)
    (w : WalletOracle) : List TicketAddress :=
  ctres.foldl
    (fun eligible t =>
      match w.getTransaction t.ticket with
      | none => eligible
      | some tx =>
        match w.commitmentAddress tx with
        | none => eligible
        | some addr =>
          match w.validateAddress addr with
          | none => eligible
          | some acct =>
            if acct ≥ 2 ^ 31 - 1 then eligible
            else if rrVotes.any (fun v => v.ticket = t.ticket) then eligible
            else eligible ++ [t])
    []

/-! ## Claim C5: journal layout -/

/-- C5 counterexample: the claim names the per-proposal journal files
`work.<ts>`, `success.<ts>` and `failed.<ts>`, but the journal base-name
constants are `work.json`, `success.json` and `failed.json`, so `jsonLog`
writes `<voteDir>/<token>/failed.json.<ts>` — at run timestamp 5 the failed
journal is `votes/abc1/failed.json.5`, not `votes/abc1/failed.5`. -/
theorem journalFilePath_json_infix_cx :
    journalFilePath "votes" "abc1" failedJournal 5 = "votes/abc1/failed.json.5" ∧
    journalFilePath "votes" "abc1" failedJournal 5 ≠ "votes/abc1/failed.5" := by
  constructor
  · rfl
  · decide

/-- C5 amended: every journal append writes to
`<voteDir>/<token>/<name>.<ts>` where `<ts>` is the run-start Unix timestamp
and the three journal names are `work.json.<ts>`, `success.json.<ts>` and
`failed.json.<ts>`; the directory is created with mode 0700, the file is
opened `O_WRONLY|O_CREATE|O_APPEND` (never truncating) with mode 0600, and
each append writes a `{time: ...}` marker record followed by the payload
records. -/
theorem jsonLog_journal_layout (α : Type) (voteDir token : String) (runUnix : Int)
    (now : String) (work : List α) (name : String)
    (hname : name = workJournal ∨ name = successJournal ∨ name = failedJournal) :
    (jsonLog α voteDir token name runUnix now work).dirPath = voteDir ++ "/" ++ token ∧
    (jsonLog α voteDir token name runUnix now work).dirMode = 0o700 ∧
    (jsonLog α voteDir token name runUnix now work).fileMode = 0o600 ∧
    (jsonLog α voteDir token name runUnix now work).flags =
      [FileFlag.oWronly, FileFlag.oCreate, FileFlag.oAppend] ∧
    FileFlag.oTrunc ∉ (jsonLog α voteDir token name runUnix now work).flags ∧
    (jsonLog α voteDir token name runUnix now work).filePath =
      voteDir ++ "/" ++ token ++ "/" ++ (name ++ "." ++ toString runUnix) ∧
    (name ++ "." ++ toString runUnix = "work.json." ++ toString runUnix ∨
     name ++ "." ++ toString runUnix = "success.json." ++ toString runUnix ∨
     name ++ "." ++ toString runUnix = "failed.json." ++ toString runUnix) ∧
    (jsonLog α voteDir token name runUnix now work).records =
      JournalRecord.timeMarker now :: work.map JournalRecord.payload := by
  refine ⟨rfl, rfl, rfl, rfl, ?_, rfl, ?_, rfl⟩
  · simp [jsonLog]
  · rcases hname with h | h | h <;> subst h
    · exact Or.inl rfl
    · exact Or.inr (Or.inl rfl)
    · exact Or.inr (Or.inr rfl)

/-- C5 witness: the amended layout at a concrete append of one work payload
at run timestamp 7. -/
theorem jsonLog_journal_layout_witness :
    (jsonLog String "d" "tok" workJournal 7 "now" ["w"]).filePath = "d/tok/work.json.7" ∧
    (jsonLog String "d" "tok" workJournal 7 "now" ["w"]).fileMode = 0o600 := by
  have h := jsonLog_journal_layout String "d" "tok" 7 "now" ["w"] workJournal (Or.inl rfl)
  exact ⟨h.2.2.2.2.2.1.trans (by decide), h.2.2.1⟩

/-! ## Claim C4: makeRequest error taxonomy -/

/-- C4: `makeRequest` classifies HTTP outcomes: a transport failure
(`client.Do` error) returns an `ErrRetry` located at `c.client.Do(req)`; a
response whose status is neither 200 nor 400 returns an `ErrRetry` carrying
the location, the status code and the body; an HTTP 400 response with a
structured `UserErrorReply` body of nonzero `ErrorCode` returns a plain
terminal error, never an `ErrRetry`. -/
theorem makeRequest_classification (e : String) (status : Nat) (b b400 : ResponseBody)
    (ue : UserErrorReply) (hs200 : status ≠ 200) (hs400 : status ≠ 400)
    (hue : b400.ueReply = some ue) (hcode : ue.errorCode ≠ 0) :
    makeRequest (HttpOutcome.doErr e) =
      ReqResult.retry ⟨"c.client.Do(req)", none, 0, some e⟩ ∧
    makeRequest (HttpOutcome.resp status b) =
      ReqResult.retry ⟨"r.StatusCode != http.StatusOK", some b.raw, status, none⟩ ∧
    (∀ er, makeRequest (HttpOutcome.resp 400 b400) ≠ ReqResult.retry er) ∧
    (∃ m, makeRequest (HttpOutcome.resp 400 b400) = ReqResult.terminal m) := by
  refine ⟨rfl, ?_, ?_, ?_⟩
  · simp [makeRequest, hs200, hs400]
  · intro er
    simp [makeRequest, hue, hcode]
  · simp [makeRequest, hue, hcode]

/-- C4 witness: the classification at a concrete transport failure, a
concrete 502 response, and a concrete structured 400 response. -/
theorem makeRequest_classification_witness :
    makeRequest (HttpOutcome.doErr "connection refused") =
      ReqResult.retry ⟨"c.client.Do(req)", none, 0, some "connection refused"⟩ ∧
    makeRequest (HttpOutcome.resp 502 ⟨"gateway", none, none⟩) =
      ReqResult.retry ⟨"r.StatusCode != http.StatusOK", some "gateway", 502, none⟩ ∧
    (∀ er, makeRequest (HttpOutcome.resp 400 ⟨"ue", some ⟨3, "ctx"⟩, none⟩) ≠
      ReqResult.retry er) := by
  have h := makeRequest_classification "connection refused" 502
    ⟨"gateway", none, none⟩ ⟨"ue", some ⟨3, "ctx"⟩, none⟩ ⟨3, "ctx"⟩
    (by decide) (by decide) rfl (by decide)
  exact ⟨h.1, h.2.1, h.2.2.1⟩

/-! ## Claim C8: 400 with an unstructured body is silent success -/

/-- C8: an HTTP 400 response whose body does not unmarshal into a
`UserErrorReply` with a nonzero `ErrorCode` makes `makeRequest` return the
raw body with a nil error — the same return as a 200 response with that
body. -/
theorem makeRequest_400_unstructured (b : ResponseBody)
    (h : b.ueReply = none ∨ ∃ ue, b.ueReply = some ue ∧ ue.errorCode = 0) :
    makeRequest (HttpOutcome.resp 400 b) = ReqResult.ok b ∧
    makeRequest (HttpOutcome.resp 400 b) = makeRequest (HttpOutcome.resp 200 b) := by
  have hok : makeRequest (HttpOutcome.resp 400 b) = ReqResult.ok b := by
    rcases h with h | ⟨ue, hue, hcode⟩
    · simp [makeRequest, h]
    · simp [makeRequest, hue, hcode]
  exact ⟨hok, hok.trans rfl⟩

/-- C8 witness: a concrete 400 whose body fails to unmarshal, and the
identical 200 return. -/
theorem makeRequest_400_unstructured_witness :
    makeRequest (HttpOutcome.resp 400 ⟨"garbage", none, none⟩) =
      ReqResult.ok ⟨"garbage", none, none⟩ := by
  exact (makeRequest_400_unstructured ⟨"garbage", none, none⟩ (Or.inl rfl)).1

/-! ## Claim C10: sendVote carries exactly one receipt -/

/-- C10: `sendVote` succeeds exactly when the ballot carries exactly one
vote, the request succeeds, and the reply unmarshals with exactly one
receipt — which is the receipt returned; every other case is an error. -/
theorem sendVote_exactly_one (ballot : CastBallot) (outcome : HttpOutcome)
    (r : CastVoteReply) :
    sendVote ballot outcome = SendVoteResult.ok r ↔
      (ballot.votes.length = 1 ∧
       ∃ body, makeRequest outcome = ReqResult.ok body ∧ body.cbReceipts = some [r]) := by
  unfold sendVote
  by_cases hlen : ballot.votes.length = 1
  · rw [if_neg (by simp [hlen])]
    cases hmk : makeRequest outcome with
    | retry e => simp
    | terminal m => simp
    | ok body =>
      obtain hcb | ⟨receipts, hcb⟩ : body.cbReceipts = none ∨ ∃ x, body.cbReceipts = some x := by
        cases body.cbReceipts
        · exact Or.inl rfl
        · exact Or.inr ⟨_, rfl⟩
      · constructor
        · intro h
          simp [hcb] at h
        · rintro ⟨-, body', hb', hcb'⟩
          cases hb'
          rw [hcb] at hcb'
          exact absurd hcb' (by simp)
      · by_cases h1 : receipts.length = 1
        · rcases List.length_eq_one.mp h1 with ⟨a, ha⟩
          subst ha
          constructor
          · intro h
            simp [hcb] at h
            exact ⟨hlen, body, rfl, by rw [hcb, h]⟩
          · rintro ⟨-, body', hb', hcb'⟩
            cases hb'
            rw [hcb] at hcb'
            injection hcb' with h2
            injection h2 with h3 h4
            subst h3
            simp [hcb]
        · constructor
          · intro h
            simp [hcb, h1] at h
          · rintro ⟨-, body', hb', hcb'⟩
            cases hb'
            rw [hcb] at hcb'
            injection hcb' with h2
            exact absurd (show receipts.length = 1 by rw [h2]; rfl) h1
  · rw [if_pos (by simp [hlen])]
    constructor
    · intro h; exact absurd h (by simp)
    · rintro ⟨h1, -⟩; exact absurd h1 hlen

/-! ## Claim C3: eligibleVotes and invalid signatures -/

/-- A wallet oracle under which every lookup succeeds and every ticket
belongs to an ordinary (non-imported) account. -/
def allGoodWallet : WalletOracle :=
  { getTransaction := fun _ => some "rawtx"
    commitmentAddress := fun _ => some "commitaddr"
    validateAddress := fun _ => some 0 }

/-- C3: the claim (and the function's own documentation) says a ticket whose
recorded vote carries an invalid signature is included in the eligible set
for resubmission; but `eligibleVotes` never examines the recorded signature
— its result is unchanged by erasing every signature — and a cast ticket the
wallet can sign for is excluded regardless of its signature: with every
wallet lookup succeeding, ticket `aa`, present in the cast set with
signature `bad-signature`, is filtered out. -/
theorem eligibleVotes_never_reads_signature :
    (∀ (rr : List CastVoteDetails) (ct : List TicketAddress) (w : WalletOracle),
       eligibleVotes (rr.map (fun v => { v with signature := "" })) ct w =
         eligibleVotes rr ct w) ∧
    eligibleVotes [⟨"aa", "1", "bad-signature"⟩] [⟨"aa", "commitaddr"⟩] allGoodWallet
      = [] := by
  constructor
  · intro rr ct w
    unfold eligibleVotes
    congr 1
    funext eligible t
    have : (rr.map (fun v => { v with signature := "" })).any
        (fun v => v.ticket = t.ticket) = rr.any (fun v => v.ticket = t.ticket) := by
      rw [List.any_map]
      rfl
    rw [this]
  · rfl

/-! ## Claim C1: push-back on external cancellation -/

/-- A signed vote fixture for ticket `tk`. -/
def mkCastVote (tk : String) : CastVote := ⟨"tok", tk, "1", "sig"⟩

/-- An HTTP outcome delivering one zero-error receipt for ticket `tk`. -/
def okOutcomeFor (tk : String) : HttpOutcome :=
  HttpOutcome.resp 200 ⟨"", none, some [⟨tk, "receipt", 0, ""⟩]⟩

/-- Engine state at loop entry with two scheduled votes and everything else
empty. -/
def twoVoteState : TricklerState :=
  { voteIntervalQ := [⟨mkCastVote "ticketA", 0⟩, ⟨mkCastVote "ticketB", 5⟩]
    retryQ := []
    ballotResults := []
    failedLog := []
    successLog := []
    mainLoopForceExit := false
    mainLoopDone := false }

/-- C1 counterexample: run the main loop on two scheduled votes; the first
dispatches successfully, and during the second iteration's wait the external
cancellation (`c.wctx.Done()`) fires.  The loop jumps straight to `exit`
without pushing the popped item for `ticketB` back — the interval queue ends
empty, not holding that item as the claim requires (only the
`retryLoopForceExit` arm pushes back). -/
theorem mainLoop_cancel_no_pushback_cx :
    voteTricklerLoop
        [⟨WaitEvent.timerFired, okOutcomeFor "ticketA"⟩,
         ⟨WaitEvent.ctxDone, okOutcomeFor "ticketB"⟩] 0 twoVoteState =
      Except.ok
        ({ voteIntervalQ := []
           retryQ := []
           ballotResults := [⟨"ticketA", "receipt", 0, ""⟩]
           failedLog := []
           successLog := [⟨"ticketA", "receipt", 0, ""⟩]
           mainLoopForceExit := false
           mainLoopDone := false }, TricklerExit.forcedExit) ∧
    ([] : List VoteInterval) ≠ [⟨mkCastVote "ticketB", 5⟩] := by
  constructor
  · rfl
  · decide

/-- C1 amended: during the inter-vote wait, external cancellation exits the
loop with the popped item dropped — the queue keeps only the remaining
items, and the not-cast statistic does not count the in-flight item — while
`retryLoopForceExit` pushes the popped item back (appended at the queue's
back) before exiting, so the statistic counts it in that case only. -/
theorem mainLoop_wait_exit_behaviour (evs : List IterOracle) (ev : IterOracle)
    (i : Nat) (st rest : TricklerState) (vote : VoteInterval)
    (hpop : voteIntervalPop st = some (vote, rest)) (hi : i ≠ 0) :
    (ev.wait = WaitEvent.ctxDone →
       voteTricklerLoop (ev :: evs) i st = Except.ok (rest, TricklerExit.forcedExit) ∧
       votesNotCast rest = voteIntervalLen rest + retryLen rest) ∧
    (ev.wait = WaitEvent.retryForce →
       voteTricklerLoop (ev :: evs) i st =
         Except.ok (voteIntervalPush rest vote, TricklerExit.forcedExit) ∧
       votesNotCast (voteIntervalPush rest vote) = votesNotCast rest + 1) := by
  constructor
  · intro hw
    constructor
    · rw [voteTricklerLoop, hpop]
      simp [hi, hw]
    · rfl
  · intro hw
    constructor
    · rw [voteTricklerLoop, hpop]
      simp [hi, hw]
    · simp only [votesNotCast, voteIntervalPush, voteIntervalLen, retryLen,
        List.length_append, List.length_cons, List.length_nil]
      omega

/-- C1 witness: the amended behaviour at iteration 1 on the concrete
two-vote state after its head has been popped. -/
theorem mainLoop_wait_exit_behaviour_witness :
    voteTricklerLoop [⟨WaitEvent.ctxDone, okOutcomeFor "ticketB"⟩] 1
        { twoVoteState with voteIntervalQ := [⟨mkCastVote "ticketB", 5⟩] } =
      Except.ok ({ twoVoteState with voteIntervalQ := [] }, TricklerExit.forcedExit) := by
  exact ((mainLoop_wait_exit_behaviour [] ⟨WaitEvent.ctxDone, okOutcomeFor "ticketB"⟩ 1
    { twoVoteState with voteIntervalQ := [⟨mkCastVote "ticketB", 5⟩] }
    { twoVoteState with voteIntervalQ := [] } ⟨mkCastVote "ticketB", 5⟩
    rfl (by decide)).1 rfl).1

/-! ## Claim C6: VoteStatusInvalid forces the main loop to exit -/

/-- C6: when a dispatched vote's receipt carries
`VoteErrorVoteStatusInvalid`, the main loop appends the receipt to the
failed journal, records it in `ballotResults`, raises `mainLoopForceExit`,
and exits immediately with the remaining interval queue untouched — no
further oracle events are consumed — and the `Votes not cast` statistic of
the exit state is the remaining interval-queue length plus the retry-queue
length. -/
theorem mainLoop_voteStatusInvalid_exits (evs : List IterOracle) (ev : IterOracle)
    (i : Nat) (st rest : TricklerState) (vote : VoteInterval) (vr : CastVoteReply)
    (hpop : voteIntervalPop st = some (vote, rest))
    (hdispatch : i = 0 ∨ ev.wait = WaitEvent.timerFired)
    (hsend : sendVote ⟨[vote.vote]⟩ ev.send = SendVoteResult.ok vr)
    (hcode : vr.errorCode = voteErrorVoteStatusInvalid) :
    voteTricklerLoop (ev :: evs) i st =
      Except.ok
        ({ rest with
             ballotResults := rest.ballotResults ++ [vr]
             failedLog := rest.failedLog ++ [FailedLogEntry.statusInvalid vr]
             mainLoopForceExit := true }, TricklerExit.forcedExit) ∧
    votesNotCast
        { rest with
            ballotResults := rest.ballotResults ++ [vr]
            failedLog := rest.failedLog ++ [FailedLogEntry.statusInvalid vr]
            mainLoopForceExit := true } =
      voteIntervalLen rest + retryLen rest := by
  have hcast : castOneVote vote ev.send rest =
      Except.ok (StepOut.exitLoop
        { rest with
            ballotResults := rest.ballotResults ++ [vr]
            failedLog := rest.failedLog ++ [FailedLogEntry.statusInvalid vr]
            mainLoopForceExit := true }) := by
    simp [castOneVote, hsend, hcode]
  constructor
  · rw [voteTricklerLoop, hpop]
    rcases hdispatch with h0 | hw
    · simp [h0, hcast]
    · by_cases h0 : i = 0
      · simp [h0, hcast]
      · simp [h0, hw, hcast]
  · rfl

/-- C6 witness: a concrete run — one pending vote after `ticketA`, the
server answers `ticketB`'s submission with `VoteErrorVoteStatusInvalid` —
exits immediately with the receipt journalled as failed and one vote left
uncast. -/
theorem mainLoop_voteStatusInvalid_exits_witness :
    voteTricklerLoop
        [⟨WaitEvent.timerFired,
          HttpOutcome.resp 200
            ⟨"", none, some [⟨"ticketB", "", voteErrorVoteStatusInvalid, ""⟩]⟩⟩] 1
        { twoVoteState with
            voteIntervalQ := [⟨mkCastVote "ticketB", 5⟩, ⟨mkCastVote "ticketC", 9⟩] } =
      Except.ok
        ({ twoVoteState with
             voteIntervalQ := [⟨mkCastVote "ticketC", 9⟩]
             ballotResults := [⟨"ticketB", "", voteErrorVoteStatusInvalid, ""⟩]
             failedLog :=
               [FailedLogEntry.statusInvalid ⟨"ticketB", "", voteErrorVoteStatusInvalid, ""⟩]
             mainLoopForceExit := true }, TricklerExit.forcedExit) ∧
    votesNotCast
        { twoVoteState with
            voteIntervalQ := [⟨mkCastVote "ticketC", 9⟩]
            ballotResults := [⟨"ticketB", "", voteErrorVoteStatusInvalid, ""⟩]
            failedLog :=
              [FailedLogEntry.statusInvalid ⟨"ticketB", "", voteErrorVoteStatusInvalid, ""⟩]
            mainLoopForceExit := true } = 1 := by
  have h := mainLoop_voteStatusInvalid_exits []
    ⟨WaitEvent.timerFired,
      HttpOutcome.resp 200 ⟨"", none, some [⟨"ticketB", "", voteErrorVoteStatusInvalid, ""⟩]⟩⟩ 1
    { twoVoteState with
        voteIntervalQ := [⟨mkCastVote "ticketB", 5⟩, ⟨mkCastVote "ticketC", 9⟩] }
    { twoVoteState with voteIntervalQ := [⟨mkCastVote "ticketC", 9⟩] }
    ⟨mkCastVote "ticketB", 5⟩ ⟨"ticketB", "", voteErrorVoteStatusInvalid, ""⟩
    rfl (Or.inr rfl) (by decide) rfl
  exact ⟨h.1, h.2⟩

/-! ## Claim C2: completedNotRecorded classification -/

/-- A failed-journal tuple fixture for ticket `aa`: one recorded retry
attempt. -/
def c2FailedTuple : FailedTuple :=
  ⟨⟨"t1"⟩, [⟨"tok", "aa", "1", "s"⟩], ⟨"sendVoteFail", none, 0, none⟩⟩

/-- Verifier caches for a run whose work journal schedules ticket `aa`, whose
failed journal records two retry attempts for it, and whose success journal
is empty. -/
def c2Caches : VerifyCaches :=
  { failed := [("aa", c2FailedTuple), ("aa", c2FailedTuple)]
    success := []
    work := [("t0", ⟨⟨"t0"⟩, [⟨⟨"tok", "aa", "1", "s"⟩, 0⟩]⟩)]
    errors := [] }

/-- C2 counterexample: ticket `aa` is in the work journal, has two
failed-journal entries, no success entry, and is in the server's cast set —
the claim says it is counted in `completedNotRecorded`, but the verifier's
counting loop reaches the `completedNotRecorded` branch only when
`retries == 0`, so it counts the ticket as a failed vote instead:
`(noVote, failedVote, completedNotRecorded) = (0, 1, 0)`. -/
theorem verifier_retried_cast_ticket_cx :
    countFailed c2Caches.failed "aa" = 2 ∧
    countSuccess c2Caches.success "aa" = 0 ∧
    workTickets c2Caches.work = ["aa"] ∧
    verifyStats c2Caches ["aa"] = (0, 1, 0) := by
  refine ⟨rfl, rfl, ?_, ?_⟩ <;> decide

/-- C2 amended: a work-journal ticket with no success entry that is present
in the server's cast set is counted in `completedNotRecorded` only when it
has no failed-journal entries (`retries == 0`); when retry attempts are
recorded, the counting loop classifies it as a failed vote
(`failedVote`). -/
theorem verifier_completedNotRecorded_needs_no_retries
    (failed : List (String × FailedTuple)) (success : List (String × SuccessTuple))
    (ticket : String) (inCast : Bool) :
    (countFailed failed ticket ≠ 0 → countSuccess success ticket = 0 →
       classifyFailedVote inCast (mkVoteStat failed success ticket) = (0, 1, 0)) ∧
    (countFailed failed ticket = 0 → countSuccess success ticket = 0 → inCast = true →
       classifyFailedVote inCast (mkVoteStat failed success ticket) = (0, 0, 1)) := by
  constructor
  · intro hf hs
    simp [classifyFailedVote, mkVoteStat, hf, hs]
  · intro hf hs hc
    simp [classifyFailedVote, mkVoteStat, hf, hs, hc]

/-- C2 witness: the amended classification at the concrete caches — ticket
`aa` (two retries, in cast set) counts as a failed vote, while a ticket with
no journal entries at all in the cast set counts as
`completedNotRecorded`. -/
theorem verifier_completedNotRecorded_needs_no_retries_witness :
    classifyFailedVote true (mkVoteStat c2Caches.failed c2Caches.success "aa") = (0, 1, 0) ∧
    classifyFailedVote true (mkVoteStat [] [] "bb") = (0, 0, 1) := by
  exact ⟨(verifier_completedNotRecorded_needs_no_retries c2Caches.failed c2Caches.success
            "aa" true).1 (by decide) rfl,
         (verifier_completedNotRecorded_needs_no_retries [] [] "bb" true).2 rfl rfl rfl⟩

/-! ## Claim C7: decoder EOF handling -/

/-- A failed-journal stream that is a whole number of complete, valid
tuples: each tuple is an object decodable as a time marker, a ballot
carrying exactly one vote with a nonempty ticket, and an object decodable as
an `ErrRetry`. -/
def validFailedVals : List JVal → Bool
  | [] => true
  | v1 :: v2 :: v3 :: rest =>
      (decodeAsTime v1).isSome &&
      (match decodeAsBallot v2 with
       | some [cv] => cv.ticket != ""
       | _ => false) &&
      (decodeAsErrRetry v3).isSome && validFailedVals rest
  | _ => false

/-- A success-journal stream of complete, valid tuples. -/
def validSuccessVals : List JVal → Bool
  | [] => true
  | v1 :: v2 :: rest =>
      (decodeAsTime v1).isSome &&
      (match decodeAsReply v2 with
       | some r => r.ticket != ""
       | none => false) && validSuccessVals rest
  | _ => false

/-- A work-journal stream of complete, valid tuples. -/
def validWorkVals : List JVal → Bool
  | [] => true
  | v1 :: v2 :: rest =>
      (match decodeAsTime v1 with
       | some t => t.time != ""
       | none => false) &&
      (decodeAsWork v2).isSome && validWorkVals rest
  | _ => false

theorem decodeFailedLoop_none_iff :
    ∀ (vals : List JVal) (truncated : Bool) (acc : List (String × FailedTuple)),
      (decodeFailedLoop vals truncated acc).2 = none ↔
        (truncated = false ∧ validFailedVals vals = true)
  | [], truncated, acc => by
      cases truncated <;> simp [decodeFailedLoop, validFailedVals]
  | [v1], truncated, acc => by
      cases h1 : decodeAsTime v1 <;>
        simp [decodeFailedLoop, validFailedVals, h1]
  | [v1, v2], truncated, acc => by
      cases h1 : decodeAsTime v1 <;>
        simp [decodeFailedLoop, validFailedVals, h1]
      case some t =>
        cases h2 : decodeAsBallot v2 <;> simp [h2]
        case some votes => split <;> simp
  | v1 :: v2 :: v3 :: rest, truncated, acc => by
      cases h1 : decodeAsTime v1 <;>
        simp [decodeFailedLoop, validFailedVals, h1]
      case some t =>
       cases h2 : decodeAsBallot v2 <;> simp [h2]
       case some votes =>
        match votes with
        | [] => simp
        | [cv] =>
          cases h3 : decodeAsErrRetry v3 <;> simp [h3]
          by_cases h4 : cv.ticket = ""
          · simp [h4]
          · simp [h4, decodeFailedLoop_none_iff rest truncated
              (acc ++ [(cv.ticket, ⟨_, [cv], _⟩)])]
        | cv :: cv2 :: vtl => simp

theorem decodeSuccessLoop_none_iff :
    ∀ (vals : List JVal) (truncated : Bool) (acc : List (String × SuccessTuple)),
      (decodeSuccessLoop vals truncated acc).2 = none ↔
        (truncated = false ∧ validSuccessVals vals = true)
  | [], truncated, acc => by
      cases truncated <;> simp [decodeSuccessLoop, validSuccessVals]
  | [v1], truncated, acc => by
      cases h1 : decodeAsTime v1 <;>
        simp [decodeSuccessLoop, validSuccessVals, h1]
  | v1 :: v2 :: rest, truncated, acc => by
      cases h1 : decodeAsTime v1 <;>
        simp [decodeSuccessLoop, validSuccessVals, h1]
      case some t =>
        cases h2 : decodeAsReply v2 <;> simp [h2]
        case some r =>
          by_cases h3 : r.ticket = ""
          · simp [h3]
          · simp [h3, decodeSuccessLoop_none_iff rest truncated
              (acc ++ [(r.ticket, ⟨t, r⟩)])]

theorem decodeWorkLoop_none_iff :
    ∀ (vals : List JVal) (truncated : Bool) (acc : List (String × WorkTuple)),
      (decodeWorkLoop vals truncated acc).2 = none ↔
        (truncated = false ∧ validWorkVals vals = true)
  | [], truncated, acc => by
      cases truncated <;> simp [decodeWorkLoop, validWorkVals]
  | [v1], truncated, acc => by
      cases h1 : decodeAsTime v1 <;>
        simp [decodeWorkLoop, validWorkVals, h1]
  | v1 :: v2 :: rest, truncated, acc => by
      cases h1 : decodeAsTime v1 <;>
        simp [decodeWorkLoop, validWorkVals, h1]
      case some t =>
        cases h2 : decodeAsWork v2 <;> simp [h2]
        case some votes =>
          by_cases h3 : t.time = ""
          · simp [h3]
          · simp [h3, decodeWorkLoop_none_iff rest truncated
              (acc ++ [(t.time, ⟨t, votes⟩)])]

theorem processJournalFiles_cons (name : String) (s : JournalStream)
    (fs : List (String × JournalStream)) (caches : VerifyCaches) :
    processJournalFiles ((name, s) :: fs) caches =
      processJournalFiles fs (processJournalFiles [(name, s)] caches) := by
  by_cases h1 : hasPre name failedJournal
  · rcases hdec : decodeFailed s caches.failed with ⟨f1, e1⟩
    simp [processJournalFiles, h1, hdec]
  · by_cases h2 : hasPre name successJournal
    · rcases hdec : decodeSuccess s caches.success with ⟨s1, e1⟩
      simp [processJournalFiles, h1, h2, hdec]
    · by_cases h3 : hasPre name workJournal
      · rcases hdec : decodeWork s caches.work with ⟨w1, e1⟩
        simp [processJournalFiles, h1, h2, h3, hdec]
      · by_cases h4 : name = ".voteresults"
        · subst h4
          simp [processJournalFiles,
            show hasPre ".voteresults" failedJournal = false from by decide,
            show hasPre ".voteresults" successJournal = false from by decide,
            show hasPre ".voteresults" workJournal = false from by decide]
        · simp [processJournalFiles, h1, h2, h3, h4]

/-- C7: each streaming decoder returns no error exactly when the stream is a
whole number of complete valid tuples with no trailing partial value —
`io.EOF` (clean end of stream) is graceful only between tuples (state 0),
while an end or mismatch inside a tuple is an error for that file; and
`verifyVote`'s file loop processes every remaining file after an erroring
one, recording the failed file's error message and keeping the entries its
decoder had accumulated before failing. -/
theorem journal_decoders_eof_handling (s : JournalStream)
    (name : String) (fs : List (String × JournalStream)) (caches : VerifyCaches)
    (f1 : List (String × FailedTuple)) (m : String)
    (hname : hasPre name failedJournal = true)
    (hdec : decodeFailed s caches.failed = (f1, some m)) :
    ((decodeFailed s caches.failed).2 = none ↔
      (s.truncated = false ∧ validFailedVals s.vals = true)) ∧
    ((decodeSuccess s caches.success).2 = none ↔
      (s.truncated = false ∧ validSuccessVals s.vals = true)) ∧
    ((decodeWork s caches.work).2 = none ↔
      (s.truncated = false ∧ validWorkVals s.vals = true)) ∧
    processJournalFiles ((name, s) :: fs) caches =
      processJournalFiles fs
        { caches with failed := f1,
                      errors := caches.errors ++ ["decodeFailed " ++ name ++ ": " ++ m] } := by
  refine ⟨decodeFailedLoop_none_iff s.vals s.truncated caches.failed,
          decodeSuccessLoop_none_iff s.vals s.truncated caches.success,
          decodeWorkLoop_none_iff s.vals s.truncated caches.work, ?_⟩
  rw [processJournalFiles_cons]
  simp [processJournalFiles, hname, hdec]

/-- C7 witness: a failed journal truncated mid-tuple (one complete tuple,
then a time marker, then a partial value at EOF) errors, but the following
success file is still decoded and the report caches carry both the error
message and the complete tuple read before the error. -/
theorem journal_decoders_eof_handling_witness :
    processJournalFiles
        [("failed.json.5",
          ⟨[JVal.timeRec ⟨"t1"⟩, JVal.ballotRec [⟨"tok", "aa", "1", "s"⟩],
            JVal.errRec ⟨"x", none, 0, none⟩, JVal.timeRec ⟨"t2"⟩], true⟩),
         ("success.json.5",
          ⟨[JVal.timeRec ⟨"t3"⟩, JVal.replyRec ⟨"bb", "r", 0, ""⟩], false⟩)]
        ⟨[], [], [], []⟩ =
      { failed := [("aa", ⟨⟨"t1"⟩, [⟨"tok", "aa", "1", "s"⟩], ⟨"x", none, 0, none⟩⟩)]
        success := [("bb", ⟨⟨"t3"⟩, ⟨"bb", "r", 0, ""⟩⟩)]
        work := []
        errors := ["decodeFailed failed.json.5: decode cast votes"] } := by
  have h := journal_decoders_eof_handling
    ⟨[JVal.timeRec ⟨"t1"⟩, JVal.ballotRec [⟨"tok", "aa", "1", "s"⟩],
      JVal.errRec ⟨"x", none, 0, none⟩, JVal.timeRec ⟨"t2"⟩], true⟩
    "failed.json.5"
    [("success.json.5",
      ⟨[JVal.timeRec ⟨"t3"⟩, JVal.replyRec ⟨"bb", "r", 0, ""⟩], false⟩)]
    ⟨[], [], [], []⟩
    [("aa", ⟨⟨"t1"⟩, [⟨"tok", "aa", "1", "s"⟩], ⟨"x", none, 0, none⟩⟩)]
    "decode cast votes" (by decide) (by decide)
  exact h.2.2.2.trans (by decide)

/-! ## Claim C9: hex cast versus decimal tally -/

theorem parseUint10_mk (cs : List Char) (h : cs ≠ []) :
    parseUint10 (String.mk cs) = parseUint10Core cs 0 := by
  unfold parseUint10
  cases cs with
  | nil => exact absurd rfl h
  | cons c cs' => rfl

theorem parseUint10Core_any_letter (ds : List Nat) (acc : Nat)
    (hlt : ∀ d ∈ ds, d < 16) (hex : ∃ d ∈ ds, 10 ≤ d) :
    parseUint10Core (ds.map lowerHexChar) acc = none := by
  induction ds generalizing acc with
  | nil => simp at hex
  | cons d tl ih =>
    by_cases hd : d < 10
    · simp only [List.map_cons, parseUint10Core, lowerHexChar_toNat_of_lt d hd]
      rw [if_pos (by omega)]
      by_cases hb : acc * 10 + (48 + d - 48) < 2 ^ 64
      · rw [if_pos hb]
        apply ih
        · exact fun x hx => hlt x (List.mem_cons_of_mem d hx)
        · rcases hex with ⟨x, hx, hx10⟩
          rcases List.mem_cons.mp hx with h | h
          · omega
          · exact ⟨x, h, hx10⟩
      · rw [if_neg hb]
    · exact parseUint10Core_letter d tl acc (by omega) (hlt d (List.mem_cons_self d tl))

theorem decValFrom_single (d : Nat) : decValFrom 0 [d] = d := by
  simp [decValFrom]

/-- C9: `_vote` hex-encodes the chosen option bit
(`strconv.FormatUint(vv.Bit, 16)`) while `tally` parses each recorded
`VoteBit` in base 10 (`strconv.ParseUint(v.VoteBit, 10, 64)`): the
cast-then-tally round trip yields the original bit exactly when the bit is
at most 9; any bit whose hex encoding contains a letter digit makes `tally`
return a parse error (e.g. bit 10 encodes as `a`); and a bit whose hex
encoding reparses as a different decimal value is silently counted for the
wrong option (bit 16 encodes as `10` and is tallied as 10). -/
theorem voteBit_hex_tally_decimal (bit : Nat) (hbit : bit < 2 ^ 64) :
    (parseUint10 (voteBitString bit) = some bit ↔ bit ≤ 9) ∧
    ((∃ d ∈ hexDigits bit, 10 ≤ d) → parseUint10 (voteBitString bit) = none) ∧
    (10 ≤ bit → (∀ d ∈ hexDigits bit, d < 10) →
       ∃ v, parseUint10 (voteBitString bit) = some v ∧ v ≠ bit) ∧
    voteBitString 10 = "a" ∧
    parseUint10 (voteBitString 10) = none ∧
    voteBitString 16 = "10" ∧
    parseUint10 (voteBitString 16) = some 10 ∧
    tallyCounts [voteBitString 16] = some (fun b => if b = 10 then 1 else 0) := by
  have hne : (hexDigits bit).map lowerHexChar ≠ [] := by
    simpa using hexDigits_ne_nil bit
  have hparse : parseUint10 (voteBitString bit) =
      parseUint10Core ((hexDigits bit).map lowerHexChar) 0 :=
    parseUint10_mk _ hne
  have h10 : hexDigits 10 = [10] := hexDigits_of_lt 10 (by norm_num)
  have h16 : hexDigits 16 = [1, 0] := by
    rw [hexDigits]
    rw [dif_neg (by norm_num)]
    norm_num [hexDigits_of_lt]
  have hvb10 : voteBitString 10 = "a" := by
    rw [voteBitString, h10]
    decide
  have hvb16 : voteBitString 16 = "10" := by
    rw [voteBitString, h16]
    decide
  have hany : (∃ d ∈ hexDigits bit, 10 ≤ d) → parseUint10 (voteBitString bit) = none := by
    intro hex
    rw [hparse]
    exact parseUint10Core_any_letter _ 0 (hexDigits_lt bit) hex
  have hdec : (∀ d ∈ hexDigits bit, d < 10) → 16 ≤ bit →
      parseUint10 (voteBitString bit) = some (decValFrom 0 (hexDigits bit)) ∧
      decValFrom 0 (hexDigits bit) < bit := by
    intro hall h16b
    have hlt := decValFrom_hexDigits_lt bit h16b
    constructor
    · rw [hparse]
      exact parseUint10Core_map _ 0 hall (by omega)
    · exact hlt
  refine ⟨?_, hany, ?_, hvb10, ?_, hvb16, ?_, ?_⟩
  · constructor
    · intro hp
      by_contra h9
      push_neg at h9
      rcases Nat.lt_or_ge bit 16 with hb16 | hb16
      · rw [hparse, hexDigits_of_lt bit hb16] at hp
        rw [parseUint10Core_letter bit [] 0 (by omega) hb16] at hp
        exact Option.noConfusion hp
      · by_cases hall : ∀ d ∈ hexDigits bit, d < 10
        · rcases hdec hall hb16 with ⟨hp', hlt⟩
          rw [hp'] at hp
          have : decValFrom 0 (hexDigits bit) = bit := by
            injection hp
          omega
        · push_neg at hall
          rcases hall with ⟨d, hdmem, hd10⟩
          rw [hany ⟨d, hdmem, by omega⟩] at hp
          exact Option.noConfusion hp
    · intro h9
      rw [hparse, hexDigits_of_lt bit (by omega)]
      have := parseUint10Core_map [bit] 0 (by simpa using (by omega : bit < 10))
        (by rw [decValFrom_single]; omega)
      rw [this, decValFrom_single]
  · intro h10b hall
    rcases Nat.lt_or_ge bit 16 with hb16 | hb16
    · exfalso
      have := hall bit (by rw [hexDigits_of_lt bit hb16]; exact List.mem_singleton_self bit)
      omega
    · rcases hdec hall hb16 with ⟨hp', hlt⟩
      exact ⟨decValFrom 0 (hexDigits bit), hp', by omega⟩
  · rw [hvb10]
    decide
  · rw [hvb16]
    decide
  · rw [hvb16]
    have hp : parseUint10 "10" = some 10 := by decide
    unfold tallyCounts
    simp only [List.foldl_cons, List.foldl_nil, hp]

/-- C9 witness: bit 3 (a legal single-digit bit) round-trips through the
hex-cast / decimal-tally pair unchanged. -/
theorem voteBit_hex_tally_decimal_witness :
    parseUint10 (voteBitString 3) = some 3 := by
  exact (voteBit_hex_tally_decimal 3 (by norm_num)).1.mpr (by norm_num)

end Politeiavoter
